import Mathlib

/-!
Verification of the `chordpro-renderer` web component
(`src/chordpro-renderer.ts`), a Lit-based renderer for ChordPro song
sheets.

The component delegates parsing and formatting to the external
`chordsheetjs` library; we model the parser and the two formatters
abstractly as an `Externals` record (a parse that throws is modelled
by `Except.error`).  The parsed song is an opaque structure of lines,
each holding items that may carry a chord field; the component only
reads `item.chords`, so only that field is modelled.  JavaScript
values read off the parsed song may fail to be strings, so the chord
field is an `Option JsValue`.

The component's own logic — chord extraction (`extractedChords`),
sheet formatting (`formattedSheet`), view-state synchronisation
(`connectedCallback` / `updated`), the user-interaction handlers and
the render decisions — is embedded directly from the source.
DOM events dispatched by a method are returned explicitly as a list of
`Event` values.
-/

namespace ChordPro

/-- A JavaScript value sitting in an item's chord field: either a
string, or some truthy non-string value (`obj`). `null`/`undefined`
are both modelled by `Option.none` (both are falsy, and the source
checks truthiness before the `typeof` check). -/
inductive JsValue where
  | str (s : String)
  | obj
  deriving DecidableEq, Repr

/-- An item of a parsed song line; the component reads only the
`chords` field (`item.chords`). -/
structure Item where
  chords : Option JsValue
  deriving DecidableEq, Repr

/-- A line of a parsed song (`line.items`). -/
structure Line where
  items : List Item
  deriving DecidableEq, Repr

/-- A parsed song (`song.lines`), as produced by the external parser. -/
structure Song where
  lines : List Line
  deriving DecidableEq, Repr

/-- The external `chordsheetjs` collaborators: `ChordProParser.parse`
(which may throw, modelled by `Except.error`), `HtmlDivFormatter.format`
and `TextFormatter.format`. -/
structure Externals where
  parse : String → Except Unit Song
  formatHtml : Song → String
  formatText : Song → String

/-- Display mode: `'html'` (formatted) or `'text'` (raw text). -/
inductive Mode where
  | html
  | text
  deriving DecidableEq, Repr

/-- Chord chart position: `'top' | 'right' | 'bottom'`. -/
inductive ChordPosition where
  | top
  | right
  | bottom
  deriving DecidableEq, Repr

/-- The reactive fields of the component: the five public properties
(`content`, `instrument`, `showChords`, `chordPosition`, `format`) and
the three internal state fields (`_mode`, `_showChordsInternal`,
`_selectedInstrument`). -/
structure ComponentState where
  content : String
  instrument : String
  showChords : Bool
  chordPosition : ChordPosition
  format : Mode
  mode : Mode
  showChordsInternal : Bool
  selectedInstrument : String
  deriving DecidableEq, Repr

/-- The property and state initialisers of the class body. -/
def defaultState : ComponentState :=
  { content := ""
    instrument := "Standard Ukulele"
    showChords := false
    chordPosition := ChordPosition.top
    format := Mode.html
    mode := Mode.html
    showChordsInternal := false
    selectedInstrument := "Standard Ukulele" }

/-- A custom DOM event dispatched by the component. -/
inductive Event where
  | chordsChanged (chords : List String)
  | modeChanged (mode : Mode)
  | instrumentChanged (instrument : String)
  deriving DecidableEq, Repr

/-- The `availableInstruments` field of the component. -/
def availableInstruments : List String :=
  [ "Standard Ukulele"
  , "Baritone Ukulele"
  , "5ths tuned Ukulele"
  , "Standard Guitar"
  , "Drop-D Guitar"
  , "Standard Mandolin" ]

/-! ### The JavaScript default sort order

`Array.prototype.sort()` without a comparator sorts strings by
comparing their sequences of UTF-16 code units. -/

/-- The UTF-16 encoding of one Unicode scalar value: one code unit
below `0x10000`, a surrogate pair above. -/
def charUtf16 (c : Char) : List Nat :=
  let n := c.toNat
  if n < 0x10000 then [n]
  else [0xD800 + (n - 0x10000) / 0x400, 0xDC00 + (n - 0x10000) % 0x400]

/-- The UTF-16 code-unit sequence of a string. -/
def utf16Units (s : String) : List Nat :=
  s.data.foldr (fun c acc => charUtf16 c ++ acc) []

/-- Lexicographic order on code-unit sequences. -/
def lexLeNat : List Nat → List Nat → Bool
  | [], _ => true
  | _ :: _, [] => false
  | a :: as, b :: bs =>
    if a < b then true
    else if b < a then false
    else lexLeNat as bs

/-- The string order used by the default `sort()`. -/
def jsLe (a b : String) : Prop :=
  lexLeNat (utf16Units a) (utf16Units b) = true

instance : DecidableRel jsLe := fun a b =>
  inferInstanceAs (Decidable (lexLeNat (utf16Units a) (utf16Units b) = true))

instance : IsTrans String jsLe := by
  have key : ∀ as bs cs : List Nat,
      lexLeNat as bs = true → lexLeNat bs cs = true →
        lexLeNat as cs = true := by
    intro as
    induction as with
    | nil => intro _ _ _ _; rfl
    | cons x xs ih =>
      intro bs cs h₁ h₂
      cases bs with
      | nil => simp [lexLeNat] at h₁
      | cons y ys =>
        cases cs with
        | nil => simp [lexLeNat] at h₂
        | cons z zs =>
          simp only [lexLeNat] at h₁ h₂ ⊢
          rcases Nat.lt_trichotomy x y with hxy | hxy | hxy
          · rcases Nat.lt_trichotomy y z with hyz | hyz | hyz
            · simp [Nat.lt_trans hxy hyz]
            · subst hyz; simp [hxy]
            · simp [Nat.lt_asymm hyz, hyz] at h₂
          · subst hxy
            simp only [Nat.lt_irrefl, if_false] at h₁ h₂ ⊢
            rcases Nat.lt_trichotomy x z with hxz | hxz | hxz
            · simp [hxz]
            · subst hxz
              simp only [Nat.lt_irrefl, if_false] at h₁ h₂ ⊢
              exact ih ys zs h₁ h₂
            · simp [Nat.lt_asymm hxz, hxz] at h₂
          · simp [Nat.lt_asymm hxy, hxy] at h₁
  exact ⟨fun a b c => key (utf16Units a) (utf16Units b) (utf16Units c)⟩

instance : IsTotal String jsLe := by
  have key : ∀ as bs : List Nat,
      lexLeNat as bs = true ∨ lexLeNat bs as = true := by
    intro as
    induction as with
    | nil => intro _; left; rfl
    | cons x xs ih =>
      intro bs
      cases bs with
      | nil => right; rfl
      | cons y ys =>
        simp only [lexLeNat]
        rcases Nat.lt_trichotomy x y with h | h | h
        · left; simp [h]
        · subst h
          simp only [Nat.lt_irrefl, if_false]
          exact ih ys
        · right; simp [h]
  exact ⟨fun a b => key (utf16Units a) (utf16Units b)⟩

/-- The model of `Array.from(set).sort()`: a sort of the list under the
default UTF-16 string order. -/
def jsSort (l : List String) : List String :=
  List.insertionSort jsLe l

/-! ### Chord extraction -/

/-- `Set.add`: JS sets keep insertion order and ignore an element
already present. -/
def setAdd (l : List String) (t : String) : List String :=
  if t ∈ l then l else l ++ [t]

/-- The JavaScript whitespace classes (WhiteSpace and LineTerminator)
recognised by `String.prototype.trim`. -/
def jsWhitespace (c : Char) : Bool :=
  c = ' ' || c = '\t' || c = '\n' || c = '\r' ||
  c.toNat = 0xB || c.toNat = 0xC || c.toNat = 0xA0 || c.toNat = 0xFEFF ||
  c.toNat = 0x1680 || (0x2000 ≤ c.toNat && c.toNat ≤ 0x200A) ||
  c.toNat = 0x2028 || c.toNat = 0x2029 || c.toNat = 0x202F ||
  c.toNat = 0x205F || c.toNat = 0x3000

/-- `String.prototype.trim`: remove leading and trailing whitespace. -/
def jsTrim (s : String) : String :=
  ⟨((s.data.dropWhile jsWhitespace).reverse.dropWhile jsWhitespace).reverse⟩

/-- The body of the inner `forEach` of `extractedChords`: look at one
item, and add its trimmed chord string to the accumulated set when the
chord field is a truthy string whose trim is non-empty. -/
def itemStep (acc : List String) (item : Item) : List String :=
  match item.chords with
  | some (JsValue.str s) =>
    if s ≠ "" then
      let chordString := jsTrim s
      if chordString ≠ "" then setAdd acc chordString else acc
    else acc
  | _ => acc

/-- The chord contributed by one item: its chord field holds a string
whose trim is non-empty, and the contribution is the trimmed string. -/
def itemChord (item : Item) (s : String) : Prop :=
  ∃ raw, item.chords = some (JsValue.str raw) ∧ jsTrim raw ≠ "" ∧ s = jsTrim raw

/-- The body of the outer `forEach` of `extractedChords`: fold the item
step over one line's items. -/
def lineStep (acc : List String) (line : Line) : List String :=
  line.items.foldl itemStep acc

/-- The chord-set accumulation of `extractedChords`: fold the line step
over the parsed song's lines, starting from the empty set. -/
def collectChords (song : Song) : List String :=
  song.lines.foldl lineStep []

/-! ### The component's getters, handlers and lifecycle methods -/

/-- The `extractedChords` getter, together with the events it
dispatches: parse the content, fold the chord set over all lines and
items, sort it, dispatch `chords-changed` with the sorted array, and
return the array; if the parser throws, log and return `[]` with no
event. -/
def extractedChordsE (ext : Externals) (st : ComponentState) :
    List String × List Event :=
  match ext.parse st.content with
  | Except.ok song =>
    let chordArray := jsSort (collectChords song)
    (chordArray, [Event.chordsChanged chordArray])
  | Except.error _ => ([], [])

/-- The value returned by the `extractedChords` getter. -/
def extractedChords (ext : Externals) (st : ComponentState) : List String :=
  (extractedChordsE ext st).1

/-- The fixed placeholder returned by `formattedSheet` when the parser
throws, by mode. -/
def invalidFormatPlaceholder : Mode → String
  | Mode.html => "<div>Invalid ChordPro format</div>"
  | Mode.text => "Invalid ChordPro format"

/-- The `formattedSheet` getter: empty content yields the empty string
without invoking the parser; otherwise the formatter selected by
`_mode` is applied to the parsed song, and a parser throw is caught and
replaced by the invalid-format placeholder. -/
def formattedSheet (ext : Externals) (st : ComponentState) : String :=
  if st.content = "" then ""
  else
    match ext.parse st.content with
    | Except.ok song =>
      (if st.mode = Mode.html then ext.formatHtml else ext.formatText) song
    | Except.error _ => invalidFormatPlaceholder st.mode

/-- `handleModeChange`: set `_mode` and dispatch one `mode-changed`
event carrying the new mode. -/
def handleModeChange (st : ComponentState) (mode : Mode) :
    ComponentState × List Event :=
  ({ st with mode := mode }, [Event.modeChanged mode])

/-- `handleInstrumentChange`: set `_selectedInstrument` to the select
element's value and dispatch one `instrument-changed` event carrying
it. -/
def handleInstrumentChange (st : ComponentState) (value : String) :
    ComponentState × List Event :=
  ({ st with selectedInstrument := value }, [Event.instrumentChanged value])

/-- `toggleChords`: negate `_showChordsInternal`. -/
def toggleChords (st : ComponentState) : ComponentState :=
  { st with showChordsInternal := !st.showChordsInternal }

/-- `connectedCallback`: initialise the three internal state fields
from the public properties. -/
def connectedCallback (st : ComponentState) : ComponentState :=
  { st with
      mode := st.format
      showChordsInternal := st.showChords
      selectedInstrument := st.instrument }

/-- The keys present in the `changedProperties` map passed to
`updated`. -/
structure ChangedProps where
  format : Bool
  showChords : Bool
  instrument : Bool
  deriving DecidableEq, Repr

/-- `updated(changedProperties)`: re-synchronise each internal state
field from its public property when that property is in the changed
map. -/
def updated (ch : ChangedProps) (st : ComponentState) : ComponentState :=
  let st₁ := if ch.format then { st with mode := st.format } else st
  let st₂ :=
    if ch.showChords then { st₁ with showChordsInternal := st₁.showChords }
    else st₁
  if ch.instrument then { st₂ with selectedInstrument := st₂.instrument }
  else st₂

/-- The chord chart panel produced by `renderChordList`: position class
`chord-list-${chordPosition}`, the extracted chords and the selected
instrument handed to `<chord-list>`. -/
structure ChordPanel where
  position : ChordPosition
  chords : List String
  instrument : String
  deriving DecidableEq, Repr

/-- `renderChordList`: an empty template when charts are hidden or no
chords were extracted, otherwise the chart panel. -/
def renderChordList (ext : Externals) (st : ComponentState) :
    Option ChordPanel :=
  if st.showChordsInternal = false ∨ (extractedChords ext st).length = 0 then
    none
  else
    some
      { position := st.chordPosition
        chords := extractedChords ext st
        instrument := st.selectedInstrument }

/-- The body of the chord-sheet viewer: a `<div .innerHTML>` in html
mode, a `<pre>` in text mode, or the `No content` placeholder when
`formattedSheet` is empty. -/
inductive SheetBody where
  | noContent
  | htmlBody (s : String)
  | textBody (s : String)
  deriving DecidableEq, Repr

/-- The viewer body chosen inside `render()`. -/
def renderBody (ext : Externals) (st : ComponentState) : SheetBody :=
  let fs := formattedSheet ext st
  if fs = "" then SheetBody.noContent
  else if st.mode = Mode.html then SheetBody.htmlBody fs
  else SheetBody.textBody fs

/-- The observable output of `render()`: the viewer body and the chart
panel slots above, beside and below the viewer. -/
structure RenderedView where
  body : SheetBody
  topPanel : Option ChordPanel
  rightPanel : Option ChordPanel
  bottomPanel : Option ChordPanel
  deriving DecidableEq, Repr

/-- The `render()` method: the top and bottom slots hold
`renderChordList()` when `chordPosition` selects them; the right slot
additionally re-checks visibility and non-emptiness before wrapping
`renderChordList()` in the right panel. -/
def render (ext : Externals) (st : ComponentState) : RenderedView :=
  { body := renderBody ext st
    topPanel :=
      if st.chordPosition = ChordPosition.top then renderChordList ext st
      else none
    rightPanel :=
      if st.chordPosition = ChordPosition.right ∧
          st.showChordsInternal = true ∧ 0 < (extractedChords ext st).length
      then renderChordList ext st
      else none
    bottomPanel :=
      if st.chordPosition = ChordPosition.bottom then renderChordList ext st
      else none }

/-- The chart-panel slot of a rendered view at a given position. -/
def panelSlot (v : RenderedView) : ChordPosition → Option ChordPanel
  | ChordPosition.top => v.topPanel
  | ChordPosition.right => v.rightPanel
  | ChordPosition.bottom => v.bottomPanel

/-! ### Concrete fixtures used by the witnesses -/

/-- A parsed line with chord annotated items `G`, `C`, `G`. -/
def lineGCG : Line :=
  ⟨[⟨some (JsValue.str "G")⟩, ⟨some (JsValue.str "C")⟩,
    ⟨some (JsValue.str "G")⟩]⟩

/-- A one-line parsed song with chords `G`, `C`, `G`. -/
def songGCG : Song := ⟨[lineGCG]⟩

/-- A parsed song with no lines. -/
def emptySong : Song := ⟨[]⟩

/-- External collaborators whose parser accepts every text as the
`G C G` song. -/
def extOkW : Externals :=
  { parse := fun _ => Except.ok songGCG
    formatHtml := fun _ => "<div>html</div>"
    formatText := fun _ => "text" }

/-- External collaborators whose parser accepts only the empty text
(as the empty song) and throws on everything else. -/
def extEmptyW : Externals :=
  { parse := fun s => if s = "" then Except.ok emptySong else Except.error ()
    formatHtml := fun _ => "<div>html</div>"
    formatText := fun _ => "text" }

/-- A component state holding some well-formed content. -/
def stSong : ComponentState := { defaultState with content := "song" }

/-- A component state holding malformed content. -/
def stBad : ComponentState := { defaultState with content := "bad" }

/-! ### Helper lemmas -/

theorem jsSort_perm (l : List String) : (jsSort l).Perm l :=
  List.perm_insertionSort jsLe l

theorem jsSort_sorted (l : List String) : (jsSort l).Sorted jsLe :=
  List.sorted_insertionSort jsLe l

theorem mem_jsSort {s : String} {l : List String} : s ∈ jsSort l ↔ s ∈ l :=
  (jsSort_perm l).mem_iff

theorem nodup_jsSort {l : List String} (h : l.Nodup) : (jsSort l).Nodup :=
  (jsSort_perm l).symm.nodup h

theorem jsSort_nil : jsSort [] = [] := rfl

theorem mem_setAdd (l : List String) (t s : String) :
    s ∈ setAdd l t ↔ s ∈ l ∨ s = t := by
  unfold setAdd
  split
  · next hmem =>
    constructor
    · exact Or.inl
    · rintro (h | rfl)
      · exact h
      · exact hmem
  · simp

theorem nodup_setAdd (l : List String) (t : String) (h : l.Nodup) :
    (setAdd l t).Nodup := by
  unfold setAdd
  split
  · exact h
  · next hn => simp [List.nodup_append, h, hn]

theorem trim_empty : jsTrim "" = "" := rfl

theorem mem_itemStep (acc : List String) (item : Item) (s : String) :
    s ∈ itemStep acc item ↔ s ∈ acc ∨ itemChord item s := by
  rcases item with ⟨ch⟩
  cases ch with
  | none => simp [itemStep, itemChord]
  | some v =>
    cases v with
    | obj => simp [itemStep, itemChord]
    | str raw =>
      by_cases h0 : raw = ""
      · subst h0
        simp [itemStep, itemChord, trim_empty]
      · by_cases ht : jsTrim raw = ""
        · simp [itemStep, itemChord, h0, ht]
        · simp [itemStep, itemChord, h0, ht, mem_setAdd]

theorem nodup_itemStep (acc : List String) (item : Item) (h : acc.Nodup) :
    (itemStep acc item).Nodup := by
  rcases item with ⟨ch⟩
  cases ch with
  | none => exact h
  | some v =>
    cases v with
    | obj => exact h
    | str raw =>
      by_cases h0 : raw = ""
      · subst h0; simpa [itemStep] using h
      · by_cases ht : jsTrim raw = ""
        · simpa [itemStep, h0, ht] using h
        · simpa [itemStep, h0, ht] using nodup_setAdd acc (jsTrim raw) h

theorem mem_foldl_itemStep (items : List Item) (s : String) :
    ∀ acc : List String,
      s ∈ items.foldl itemStep acc ↔
        s ∈ acc ∨ ∃ item ∈ items, itemChord item s := by
  induction items with
  | nil => intro acc; simp
  | cons it its ih =>
    intro acc
    simp only [List.foldl_cons]
    rw [ih, mem_itemStep]
    simp [or_assoc]

theorem nodup_foldl_itemStep (items : List Item) :
    ∀ acc : List String, acc.Nodup → (items.foldl itemStep acc).Nodup := by
  induction items with
  | nil => intro acc h; exact h
  | cons it its ih =>
    intro acc h
    exact ih _ (nodup_itemStep acc it h)

theorem mem_foldl_lineStep (lines : List Line) (s : String) :
    ∀ acc : List String,
      s ∈ lines.foldl lineStep acc ↔
        s ∈ acc ∨ ∃ line ∈ lines, ∃ item ∈ line.items, itemChord item s := by
  induction lines with
  | nil => intro acc; simp
  | cons l ls ih =>
    intro acc
    simp only [List.foldl_cons]
    rw [ih]
    unfold lineStep
    rw [mem_foldl_itemStep]
    simp [or_assoc]

theorem nodup_foldl_lineStep (lines : List Line) :
    ∀ acc : List String, acc.Nodup → (lines.foldl lineStep acc).Nodup := by
  induction lines with
  | nil => intro acc h; exact h
  | cons l ls ih =>
    intro acc h
    exact ih _ (nodup_foldl_itemStep l.items acc h)

theorem nodup_collectChords (song : Song) : (collectChords song).Nodup :=
  nodup_foldl_lineStep song.lines [] List.nodup_nil

theorem mem_collectChords (song : Song) (s : String) :
    s ∈ collectChords song ↔
      ∃ line ∈ song.lines, ∃ item ∈ line.items, itemChord item s := by
  unfold collectChords
  rw [mem_foldl_lineStep]
  simp

theorem renderChordList_eq (ext : Externals) (st : ComponentState) :
    renderChordList ext st =
      if st.showChordsInternal = true ∧ extractedChords ext st ≠ [] then
        some
          { position := st.chordPosition
            chords := extractedChords ext st
            instrument := st.selectedInstrument }
      else none := by
  unfold renderChordList
  by_cases h1 : st.showChordsInternal = true
  · by_cases h2 : extractedChords ext st = []
    · simp [h1, h2]
    · simp [h1, h2, List.length_eq_zero]
  · have h1' : st.showChordsInternal = false := by
      simpa using h1
    simp [h1', h1]

/-! ### The claims -/

/-- C1: for every parsed song, `extractedChords` returns exactly the
set of chord strings that are non-empty after trimming whitespace,
collected over all items of all lines, each entry being the trimmed
chord string taken verbatim (case preserved) from the source, with
duplicates collapsed (no duplicate entries) and the result sorted by
the lexicographic string order of the default `sort()`. -/
theorem extractedChords_characterisation (ext : Externals)
    (st : ComponentState) (song : Song)
    (h : ext.parse st.content = Except.ok song) :
    (∀ s, s ∈ extractedChords ext st ↔
        ∃ line ∈ song.lines, ∃ item ∈ line.items,
          ∃ raw, item.chords = some (JsValue.str raw) ∧
            jsTrim raw ≠ "" ∧ s = jsTrim raw) ∧
    (extractedChords ext st).Nodup ∧
    (extractedChords ext st).Sorted jsLe := by
  have he : extractedChords ext st = jsSort (collectChords song) := by
    unfold extractedChords extractedChordsE
    rw [h]
  refine ⟨fun s => ?_, ?_, ?_⟩
  · rw [he, mem_jsSort, mem_collectChords]
    exact Iff.rfl
  · rw [he]
    exact nodup_jsSort (nodup_collectChords song)
  · rw [he]
    exact jsSort_sorted (collectChords song)

/-- C1 witness: on the concrete `G C G` song the characterisation
instantiates, `G` is extracted, and the result is duplicate-free and
sorted. -/
theorem extractedChords_characterisation_app :
    ("G" ∈ extractedChords extOkW stSong) ∧
    (extractedChords extOkW stSong).Nodup ∧
    (extractedChords extOkW stSong).Sorted jsLe := by
  have h := extractedChords_characterisation extOkW stSong songGCG rfl
  refine ⟨?_, h.2.1, h.2.2⟩
  exact (h.1 "G").mpr
    ⟨lineGCG, by decide, ⟨some (JsValue.str "G")⟩, by decide, "G",
      rfl, by decide, rfl⟩

/-- C2: for every input text on which the external parser throws
(given that, as for the real parser, it does not throw on the empty
text), `formattedSheet` equals the invalid-format placeholder of the
active mode — markup-wrapped in html mode, plain in text mode — and
chord extraction yields the empty sequence. -/
theorem parseFailure_placeholder (ext : Externals) (st : ComponentState)
    (hok : ∀ e, ext.parse "" ≠ Except.error e)
    (herr : ext.parse st.content = Except.error ()) :
    formattedSheet ext st = invalidFormatPlaceholder st.mode ∧
    extractedChords ext st = [] := by
  have hc : ¬ st.content = "" := fun h => hok () (h ▸ herr)
  constructor
  · unfold formattedSheet
    rw [if_neg hc, herr]
  · unfold extractedChords extractedChordsE
    rw [herr]

/-- C2 witness: with a parser accepting exactly the empty text, the
malformed content `bad` renders as the placeholder and extracts no
chords. -/
theorem parseFailure_placeholder_app :
    formattedSheet extEmptyW stBad = invalidFormatPlaceholder stBad.mode ∧
    extractedChords extEmptyW stBad = [] :=
  parseFailure_placeholder extEmptyW stBad
    (fun e h => by simp [extEmptyW] at h) rfl

/-- C3 counterexample: the claimed identifier `5ths-tuned Ukulele`
(hyphenated) is not among the selectable instruments, so the claimed
six-element set differs from the code's. -/
theorem availableInstruments_hyphen_mismatch :
    "5ths-tuned Ukulele" ∉ availableInstruments ∧
    availableInstruments ≠
      [ "Standard Ukulele", "Baritone Ukulele", "5ths-tuned Ukulele",
        "Standard Guitar", "Drop-D Guitar", "Standard Mandolin" ] := by
  decide

/-- C3 amended: the set of selectable instrument identifiers equals
exactly the six-element set with `5ths tuned Ukulele` spelled with a
space, and the default instrument (both the public property and the
internal selection) is `Standard Ukulele`. -/
theorem availableInstruments_characterisation :
    availableInstruments =
      [ "Standard Ukulele", "Baritone Ukulele", "5ths tuned Ukulele",
        "Standard Guitar", "Drop-D Guitar", "Standard Mandolin" ] ∧
    availableInstruments.length = 6 ∧
    availableInstruments.Nodup ∧
    defaultState.instrument = "Standard Ukulele" ∧
    defaultState.selectedInstrument = "Standard Ukulele" :=
  ⟨rfl, rfl, by decide, rfl, rfl⟩

/-- C4: `updated` resynchronises exactly the internal state values
whose external property is in the changed map — setting them equal to
the external value, overwriting any user-made internal choice — and
leaves the others alone; `connectedCallback` initialises all three
from the external properties; and no user handler writes an internal
choice back to its external property. -/
theorem externalSync_oneWay (ch : ChangedProps) (st : ComponentState)
    (m : Mode) (v : String) :
    ((updated ch st).mode = if ch.format then st.format else st.mode) ∧
    ((updated ch st).showChordsInternal =
      if ch.showChords then st.showChords else st.showChordsInternal) ∧
    ((updated ch st).selectedInstrument =
      if ch.instrument then st.instrument else st.selectedInstrument) ∧
    (updated ch st).format = st.format ∧
    (updated ch st).showChords = st.showChords ∧
    (updated ch st).instrument = st.instrument ∧
    (connectedCallback st).mode = st.format ∧
    (connectedCallback st).showChordsInternal = st.showChords ∧
    (connectedCallback st).selectedInstrument = st.instrument ∧
    (handleModeChange st m).1.format = st.format ∧
    (handleInstrumentChange st v).1.instrument = st.instrument ∧
    (toggleChords st).showChords = st.showChords := by
  rcases ch with ⟨cf, cs, ci⟩
  cases cf <;> cases cs <;> cases ci <;>
    simp [updated, connectedCallback, handleModeChange,
      handleInstrumentChange, toggleChords]

/-- C5: a mode-button interaction emits exactly one `mode-changed`
event carrying the newly selected mode, and an instrument selection
emits exactly one `instrument-changed` event carrying the newly
selected identifier; neither alters the extracted chord list, which
depends only on the `content` property. -/
theorem handler_events_frame (ext : Externals) (st : ComponentState)
    (m : Mode) (v : String) :
    (handleModeChange st m).2 = [Event.modeChanged m] ∧
    (handleInstrumentChange st v).2 = [Event.instrumentChanged v] ∧
    extractedChords ext (handleModeChange st m).1 = extractedChords ext st ∧
    extractedChords ext (handleInstrumentChange st v).1 =
      extractedChords ext st ∧
    (∀ st₂, st₂.content = st.content →
      extractedChords ext st₂ = extractedChords ext st) := by
  refine ⟨rfl, rfl, rfl, rfl, fun st₂ h => ?_⟩
  unfold extractedChords extractedChordsE
  rw [h]

/-- C5 witness: switching to text mode on concrete content dispatches
the one `mode-changed` event and leaves extraction unchanged. -/
theorem handler_events_frame_app :
    (handleModeChange stSong Mode.text).2 = [Event.modeChanged Mode.text] ∧
    extractedChords extOkW { stSong with mode := Mode.text } =
      extractedChords extOkW stSong :=
  ⟨(handler_events_frame extOkW stSong Mode.text "x").1,
   (handler_events_frame extOkW stSong Mode.text "x").2.2.2.2
     { stSong with mode := Mode.text } rfl⟩

/-- C6: a chart panel appears in the rendered output exactly when the
internal visibility flag is set and the extracted chord list is
non-empty, in exactly the slot named by `chordPosition`, carrying the
extracted chords and selected instrument; and `toggleChords` negates
the internal visibility flag. -/
theorem chartPanel_placement (ext : Externals) (st : ComponentState)
    (pos : ChordPosition) :
    (panelSlot (render ext st) pos =
      if st.showChordsInternal = true ∧ extractedChords ext st ≠ [] ∧
          st.chordPosition = pos then
        some
          { position := st.chordPosition
            chords := extractedChords ext st
            instrument := st.selectedInstrument }
      else none) ∧
    (toggleChords st).showChordsInternal = !st.showChordsInternal := by
  refine ⟨?_, rfl⟩
  have hr := renderChordList_eq ext st
  by_cases h1 : st.showChordsInternal = true <;>
    by_cases h2 : extractedChords ext st = [] <;>
      cases pos <;> cases h3 : st.chordPosition <;>
        simp_all [panelSlot, render, List.length_eq_zero, List.length_pos]

/-- C7: for every input, including texts the parser rejects,
`formattedSheet` and `extractedChords` return normally: the sheet is
the empty string (empty content), the selected formatter's output, or
the invalid-format placeholder, and the chord list is the sorted
collected set or the empty list. -/
theorem degradation_total (ext : Externals) (st : ComponentState) :
    ((st.content = "" ∧ formattedSheet ext st = "") ∨
     (∃ song, ext.parse st.content = Except.ok song ∧
        formattedSheet ext st =
          (if st.mode = Mode.html then ext.formatHtml else ext.formatText)
            song) ∨
     formattedSheet ext st = invalidFormatPlaceholder st.mode) ∧
    ((∃ song, ext.parse st.content = Except.ok song ∧
        extractedChords ext st = jsSort (collectChords song)) ∨
     extractedChords ext st = []) := by
  constructor
  · by_cases hc : st.content = ""
    · exact Or.inl ⟨hc, by simp [formattedSheet, hc]⟩
    · cases hp : ext.parse st.content with
      | ok song =>
        exact Or.inr (Or.inl ⟨song, rfl, by simp [formattedSheet, hc, hp]⟩)
      | error e =>
        exact Or.inr (Or.inr (by simp [formattedSheet, hc, hp]))
  · cases hp : ext.parse st.content with
    | ok song =>
      exact Or.inl ⟨song, rfl, by simp [extractedChords, extractedChordsE, hp]⟩
    | error e =>
      exact Or.inr (by simp [extractedChords, extractedChordsE, hp])

/-- C8: extraction is deterministic in the content — on two states with
the same content it returns the same chord sequence and dispatches the
same events — and whenever the parse succeeds the `chords-changed`
notification fires on that recomputation (payload equal to the
returned array), not only when the chord set changed. -/
theorem extraction_deterministic (ext : Externals) (st st₂ : ComponentState)
    (h : st.content = st₂.content) :
    extractedChordsE ext st = extractedChordsE ext st₂ ∧
    (∀ song, ext.parse st.content = Except.ok song →
      (extractedChordsE ext st).2 =
        [Event.chordsChanged (extractedChords ext st)]) := by
  constructor
  · unfold extractedChordsE
    rw [h]
  · intro song hp
    simp [extractedChordsE, extractedChords, hp]

/-- C8 witness: two states sharing the concrete content extract
identically, and the successful recomputation dispatches the
notification carrying its result. -/
theorem extraction_deterministic_app :
    extractedChordsE extOkW stSong =
      extractedChordsE extOkW { stSong with mode := Mode.text } ∧
    (extractedChordsE extOkW stSong).2 =
      [Event.chordsChanged (extractedChords extOkW stSong)] :=
  ⟨(extraction_deterministic extOkW stSong
      { stSong with mode := Mode.text } rfl).1,
   (extraction_deterministic extOkW stSong stSong rfl).2 songGCG rfl⟩

/-- C9: for the empty content (given that, as for the real parser, a
successfully parsed empty text carries no chord items), extraction
yields the empty sequence, `formattedSheet` is the empty string, and
the rendered body is the `No content` placeholder. -/
theorem emptyContent_render (ext : Externals) (st : ComponentState)
    (hc : st.content = "")
    (hp : ∀ song, ext.parse "" = Except.ok song → collectChords song = []) :
    extractedChords ext st = [] ∧
    formattedSheet ext st = "" ∧
    (render ext st).body = SheetBody.noContent := by
  have hs : formattedSheet ext st = "" := by simp [formattedSheet, hc]
  refine ⟨?_, hs, ?_⟩
  · unfold extractedChords extractedChordsE
    rw [hc]
    cases hpp : ext.parse "" with
    | ok song => simp [hp song hpp, jsSort_nil]
    | error e => simp
  · simp [render, renderBody, hs]

/-- C9 witness: with a parser mapping the empty text to the empty
song, the default (empty-content) state extracts nothing and renders
the placeholder body. -/
theorem emptyContent_render_app :
    extractedChords extEmptyW defaultState = [] ∧
    formattedSheet extEmptyW defaultState = "" ∧
    (render extEmptyW defaultState).body = SheetBody.noContent :=
  emptyContent_render extEmptyW defaultState rfl
    (fun song h => by
      simp only [extEmptyW, if_pos] at h
      cases h
      rfl)

/-- C10: the `chords-changed` notification is dispatched exactly when
parsing succeeds — a throwing parse returns `([], [])` with no event,
a successful parse dispatches exactly one event whose payload is the
returned array (also when that array is empty) — and an item whose
chord field holds a non-string value is skipped. -/
theorem chordsChanged_dispatch (ext : Externals) (st : ComponentState) :
    (∀ e, ext.parse st.content = Except.error e →
      extractedChordsE ext st = ([], [])) ∧
    (∀ song, ext.parse st.content = Except.ok song →
      (extractedChordsE ext st).2 =
        [Event.chordsChanged (extractedChords ext st)]) ∧
    (∀ acc, itemStep acc ⟨some JsValue.obj⟩ = acc) := by
  refine ⟨?_, ?_, fun acc => rfl⟩
  · intro e hp
    simp [extractedChordsE, hp]
  · intro song hp
    simp [extractedChordsE, extractedChords, hp]

/-- C10 witness: the throwing parse of `bad` yields no event, the
successful parse of the empty text dispatches the event with the empty
payload, and a non-string chord value adds nothing. -/
theorem chordsChanged_dispatch_app :
    extractedChordsE extEmptyW stBad = ([], []) ∧
    (extractedChordsE extEmptyW defaultState).2 =
      [Event.chordsChanged (extractedChords extEmptyW defaultState)] ∧
    itemStep ["G"] ⟨some JsValue.obj⟩ = ["G"] :=
  ⟨(chordsChanged_dispatch extEmptyW stBad).1 () rfl,
   (chordsChanged_dispatch extEmptyW defaultState).2.1 emptySong rfl,
   (chordsChanged_dispatch extEmptyW defaultState).2.2 ["G"]⟩

end ChordPro
